import Mathlib

/-!
Shallow embedding of the dicom-labeler repository (src/apply_labels.py and
src/extract_dicom_headers.py) for checking its natural-language specification.

Modelling conventions:
* Python strings are Lean `String`; `s[:k]` is `strTake s k`; `len s` is
  `s.data.length` (definitionally `String.length`).
* DICOM header attribute values reaching the relevant code paths are strings
  (pydicom value representations are stringly typed); an absent attribute is
  `none`.
* Python `int(s)` / `float(s)` are modelled by `pyInt?` / `pyFloat?` over `Int`
  and `Rat`: optional surrounding whitespace, an optional sign, then digits
  (for `float` also an optional fractional part and decimal exponent).
  A string the Python call would reject yields `none`, matching the
  `try/except` wrappers in the source.  Binary floating point rounding is
  abstracted to exact rational arithmetic.
* The file system is a list of files, each a root-relative path together with
  its content; pydicom read failure is the `Entry.unreadable` content.
* The threaded run in `main` is modelled sequentially: each file is processed
  independently and the outcome counters are commutative, so the fold is an
  equivalent schedule.
-/

namespace DicomLabeler

/-! ### String kit -/

/-- Python slice `s[:n]` for a nonnegative `n`. -/
def strTake (s : String) (n : Nat) : String :=
  String.mk (s.data.take n)

/-- The string `s` starts with `pre`. -/
def strStarts (s pre : String) : Prop :=
  s.data.take pre.data.length = pre.data

/-- Python `s.strip()` (ASCII whitespace). -/
def strTrim (s : String) : String :=
  String.mk (((s.data.dropWhile Char.isWhitespace).reverse.dropWhile Char.isWhitespace).reverse)

/-- Python `s.upper()` on the ASCII range. -/
def strUpper (s : String) : String :=
  String.mk (s.data.map Char.toUpper)

/-- Python `s.lower()` on the ASCII range. -/
def strLower (s : String) : String :=
  String.mk (s.data.map Char.toLower)

theorem strData_append (a b : String) : (a ++ b).data = a.data ++ b.data := by
  cases a
  cases b
  rfl

theorem strExt {a b : String} (h : a.data = b.data) : a = b := by
  cases a
  cases b
  exact congrArg String.mk h

/-! ### Python numeric string parsing -/

/-- Value of a digit run, most significant first. -/
def digitsToNat (cs : List Char) : Nat :=
  cs.foldl (fun a c => a * 10 + (c.toNat - 48)) 0

/-- A nonempty all-digit run parses to its value. -/
def digitsVal? (cs : List Char) : Option Nat :=
  if cs.isEmpty then none
  else if cs.all Char.isDigit then some (digitsToNat cs) else none

/-- Python `int(s)`: optional surrounding whitespace, optional sign, digits. -/
def pyInt? (s : String) : Option Int :=
  match (strTrim s).data with
  | '+' :: rest => (digitsVal? rest).map (fun n => (n : Int))
  | '-' :: rest => (digitsVal? rest).map (fun n => -(n : Int))
  | cs => (digitsVal? cs).map (fun n => (n : Int))

/-- Exponent of a float literal: optional sign then digits. -/
def expVal? (cs : List Char) : Option Int :=
  match cs with
  | '+' :: rest => (digitsVal? rest).map (fun n => (n : Int))
  | '-' :: rest => (digitsVal? rest).map (fun n => -(n : Int))
  | cs2 => (digitsVal? cs2).map (fun n => (n : Int))

/-- Unsigned mantissa of a float literal: digits, optionally `.` and digits,
with at least one digit overall. -/
def mantVal? (cs : List Char) : Option Rat :=
  let ip := cs.takeWhile Char.isDigit
  match cs.dropWhile Char.isDigit with
  | [] => if ip.isEmpty then none else some ((digitsToNat ip : Nat) : Rat)
  | '.' :: fr =>
    if fr.all Char.isDigit then
      if ip.isEmpty && fr.isEmpty then none
      else some ((digitsToNat ip : Rat) + (digitsToNat fr : Rat) / ((10 : Rat) ^ fr.length))
    else none
  | _ => none

/-- Unsigned float literal: mantissa with optional `e`/`E` exponent. -/
def pyFloatCore? (cs : List Char) : Option Rat :=
  let notE : Char → Bool := fun c => !(c == 'e' || c == 'E')
  match mantVal? (cs.takeWhile notE), cs.dropWhile notE with
  | some m, [] => some m
  | some m, _ :: ecs =>
    match expVal? ecs with
    | some e => some (m * (10 : Rat) ^ e)
    | none => none
  | none, _ => none

/-- Python `float(s)` on finite decimal literals (the values DICOM decimal
strings take); any string `float` would reject yields `none`. -/
def pyFloat? (s : String) : Option Rat :=
  match (strTrim s).data with
  | '+' :: rest => pyFloatCore? rest
  | '-' :: rest => (pyFloatCore? rest).map (fun x => -x)
  | cs => pyFloatCore? cs

/-- Python `a or b` for strings: `b` when `a` is falsy (empty), else `a`. -/
def pyOr (a b : String) : String :=
  if a = "" then b else a

/-- Python `a or b` where `a` is an optional string (`dict.get` result). -/
def pyOrOpt (a : Option String) (b : String) : String :=
  match a with
  | none => b
  | some s => if s = "" then b else s

/-! ### Python dict as an association list (insertion order preserved) -/

/-- Python `d.get(k)` / `d[k]`. -/
def dictGet {K V : Type} [DecidableEq K] (m : List (K × V)) (k : K) : Option V :=
  match m with
  | [] => none
  | (k2, v) :: rest => if k2 = k then some v else dictGet rest k

/-- Python `d[k] = v`: replace in place, or append a new binding. -/
def dictSet {K V : Type} [DecidableEq K] (m : List (K × V)) (k : K) (v : V) : List (K × V) :=
  match m with
  | [] => [(k, v)]
  | (k2, w) :: rest => if k2 = k then (k2, v) :: rest else (k2, w) :: dictSet rest k v

/-! ### src/apply_labels.py -/

/-- PROTO_MAX_LEN = 64. -/
def PROTO_MAX_LEN : Nat := 64

/-- The slice metadata read by `classify_acq_dim` and `handle_file`
(pydicom dataset attributes; `none` models an absent attribute). -/
structure Dataset where
  seriesInstanceUID : Option String
  numberOfTemporalPositions : Option String
  sliceThickness : Option String
  spacingBetweenSlices : Option String
  protocolName : Option String
deriving DecidableEq, Repr

/-- The 4D test of `classify_acq_dim`: the guard
`ntp not in (None, "", 0, "0")` followed by `int(ntp) > 1` under
`try/except`. -/
def ntpIs4D (o : Option String) : Bool :=
  match o with
  | none => false
  | some v =>
    if v = "" ∨ v = "0" then false
    else
      match pyInt? v with
      | some n => decide (1 < n)
      | none => false

/-- The `to_float(...) < 2.0` test of `classify_acq_dim`; a missing or
unparseable value does not satisfy it. -/
def floatLt2 (o : Option String) : Bool :=
  match o with
  | none => false
  | some v =>
    match pyFloat? v with
    | some x => decide (x < 2)
    | none => false

/-- classify_acq_dim from src/apply_labels.py. -/
def classify_acq_dim (ds : Dataset) : String :=
  if ntpIs4D ds.numberOfTemporalPositions then "4D"
  else if floatLt2 ds.sliceThickness || floatLt2 ds.spacingBetweenSlices then "3D"
  else "2D"

/-- The f-string prefix of `build_protocol_name`. -/
def protoPfx (annot dim plane : String) : String :=
  "seq_" ++ annot ++ "_acq_" ++ dim ++ "_plane_" ++ plane ++ "___"

/-- build_protocol_name from src/apply_labels.py: prefix plus the original
sliced to `max(PROTO_MAX_LEN - len(prefix), 0)` characters. -/
def build_protocol_name (orig annot dim plane : String) : String :=
  let pfx := protoPfx annot dim plane
  let max_orig_len : Int := (PROTO_MAX_LEN : Int) - pfx.data.length
  pfx ++ strTake orig (max max_orig_len 0).toNat

/-- Content of a file on disk: a readable DICOM dataset, or anything
`pydicom.dcmread` raises on. -/
inductive Entry
  | dicom (ds : Dataset)
  | unreadable
deriving DecidableEq, Repr

/-- A file: root-relative path (list of components) plus content. -/
structure FsFile where
  path : List String
  entry : Entry
deriving DecidableEq, Repr

/-- Outcome keys of `handle_file`. -/
inductive Outcome
  | edited
  | moved
  | skipped
  | unchanged
  | error
deriving DecidableEq, Repr

/-- The manifest-derived `uid_map`: Series Instance UID to
(Annotation, Plane Orientation). -/
abbrev UidMap := List (String × String × String)

/-- handle_file from src/apply_labels.py with `dry_run = False`, on the
executions where no OS write/move call raises; returns the outcome and the
resulting file (new path when moved, new dataset when edited). -/
def handle_file (m : UidMap) (f : FsFile) : Outcome × FsFile :=
  match f.entry with
  | .unreadable => (.error, f)
  | .dicom ds =>
    match ds.seriesInstanceUID with
    | none => (.skipped, f)
    | some uid =>
      match dictGet m uid with
      | none => (.skipped, f)
      | some (annot, plane) =>
        if strUpper annot = "DELETE" then
          (.moved, ⟨"WAITING_DELETION" :: f.path, f.entry⟩)
        else
          let dim := classify_acq_dim ds
          let origp := ds.protocolName.getD ""
          let np := build_protocol_name origp (pyOr annot "UNKNOWN") dim (pyOr plane "UNKNOWN")
          if np = origp then (.unchanged, f)
          else
            (.edited,
              ⟨f.path,
               .dicom ⟨ds.seriesInstanceUID, ds.numberOfTemporalPositions,
                       ds.sliceThickness, ds.spacingBetweenSlices, some np⟩⟩)

/-- Which OS calls raise while processing one file: `writeFails` covers
`ds.save_as` / `os.replace`, `moveFails` covers `dest.parent.mkdir` /
`shutil.move`. -/
structure IOFlags where
  writeFails : Bool
  moveFails : Bool
deriving DecidableEq, Repr

/-- handle_file with the OS failure modes explicit.  `Except.error` is an
exception propagating out of `handle_file` (the write path has `try/finally`
but no `except`, and the move path is unguarded).  The second component
records whether the staging temp file is left behind: the `finally` clause
unlinks it on failure and `os.replace` consumes it on success, so it is
`false` on every path. -/
def handle_file_io (fl : IOFlags) (m : UidMap) (f : FsFile) :
    Except String (Outcome × FsFile) × Bool :=
  match f.entry with
  | .unreadable => (.ok (.error, f), false)
  | .dicom ds =>
    match ds.seriesInstanceUID with
    | none => (.ok (.skipped, f), false)
    | some uid =>
      match dictGet m uid with
      | none => (.ok (.skipped, f), false)
      | some (annot, plane) =>
        if strUpper annot = "DELETE" then
          if fl.moveFails then (.error "move failed", false)
          else (.ok (.moved, ⟨"WAITING_DELETION" :: f.path, f.entry⟩), false)
        else
          let dim := classify_acq_dim ds
          let origp := ds.protocolName.getD ""
          let np := build_protocol_name origp (pyOr annot "UNKNOWN") dim (pyOr plane "UNKNOWN")
          if np = origp then (.ok (.unchanged, f), false)
          else if fl.writeFails then (.error "save_as failed", false)
          else
            (.ok (.edited,
              ⟨f.path,
               .dicom ⟨ds.seriesInstanceUID, ds.numberOfTemporalPositions,
                       ds.sliceThickness, ds.spacingBetweenSlices, some np⟩⟩), false)

/-- Index of the last '.' in a component name, if any. -/
def lastDotIdx : List Char → Option Nat
  | [] => none
  | c :: rest =>
    match lastDotIdx rest with
    | some i => some (i + 1)
    | none => if c = '.' then some 0 else none

/-- pathlib `Path.suffix`: `name[i:]` for the last dot index `i` when
`0 < i < len(name) - 1`, else the empty string. -/
def pySuffix (name : String) : String :=
  match lastDotIdx name.data with
  | none => ""
  | some i =>
    if 0 < i ∧ i < name.data.length - 1 then String.mk (name.data.drop i) else ""

/-- Final component of a root-relative path. -/
def fileName (p : List String) : String :=
  p.getLast?.getD ""

/-- The enumeration filter of `main`:
`p.suffix.lower() in {".dcm", ".ima", ""}`. -/
def enumeratedName (name : String) : Bool :=
  let s := strLower (pySuffix name)
  s == ".dcm" || s == ".ima" || s == ""

/-- The five aggregate counters printed by `main`. -/
structure Counts where
  edited : Nat
  moved : Nat
  skipped : Nat
  unchanged : Nat
  error : Nat
deriving DecidableEq, Repr

def Counts.zero : Counts := ⟨0, 0, 0, 0, 0⟩

/-- `counts[outcome] += 1`. -/
def Counts.add (c : Counts) (o : Outcome) : Counts :=
  match o with
  | .edited => ⟨c.edited + 1, c.moved, c.skipped, c.unchanged, c.error⟩
  | .moved => ⟨c.edited, c.moved + 1, c.skipped, c.unchanged, c.error⟩
  | .skipped => ⟨c.edited, c.moved, c.skipped + 1, c.unchanged, c.error⟩
  | .unchanged => ⟨c.edited, c.moved, c.skipped, c.unchanged + 1, c.error⟩
  | .error => ⟨c.edited, c.moved, c.skipped, c.unchanged, c.error + 1⟩

def Counts.total (c : Counts) : Nat :=
  c.edited + c.moved + c.skipped + c.unchanged + c.error

/-- One run of `main` (dry_run = False, no OS failure): the file list is
snapshot up front, every enumerated file goes through `handle_file`, every
other file is untouched. -/
def run_apply (m : UidMap) : List FsFile → Counts × List FsFile
  | [] => (Counts.zero, [])
  | f :: rest =>
    let acc := run_apply m rest
    if enumeratedName (fileName f.path) then
      let r := handle_file m f
      (acc.1.add r.1, r.2 :: acc.2)
    else
      (acc.1, f :: acc.2)

/-- One run of `main` with OS failures: the exception from a failing
`fut.result()` propagates out of the counting loop, so the run aborts with
no counts (`Except.error`). -/
def run_apply_io (fl : List String → IOFlags) (m : UidMap) :
    List FsFile → Except String (Counts × List FsFile)
  | [] => .ok (Counts.zero, [])
  | f :: rest =>
    if enumeratedName (fileName f.path) then
      match handle_file_io (fl f.path) m f with
      | (.ok r, _) =>
        match run_apply_io fl m rest with
        | .ok acc => .ok (acc.1.add r.1, r.2 :: acc.2)
        | .error e => .error e
      | (.error e, _) => .error e
    else
      match run_apply_io fl m rest with
      | .ok acc => .ok (acc.1, f :: acc.2)
      | .error e => .error e

/-- Except.isOk, defined locally to keep the file self-contained. -/
def exceptIsOk {ε α : Type} : Except ε α → Bool
  | .ok _ => true
  | .error _ => false

/-! ### src/extract_dicom_headers.py -/

/-- determine_plane from src/extract_dicom_headers.py, over exact rationals:
cross product of row and column direction, first index of the
largest-magnitude normal component (`np.argmax`), oblique below 0.8. -/
def determine_plane (ori : List Rat) : String :=
  match ori with
  | [r0, r1, r2, c0, c1, c2] =>
    let n0 := r1 * c2 - r2 * c1
    let n1 := r2 * c0 - r0 * c2
    let n2 := r0 * c1 - r1 * c0
    let a0 := |n0|
    let a1 := |n1|
    let a2 := |n2|
    let idx : Nat := if a0 ≥ a1 ∧ a0 ≥ a2 then 0 else if a1 ≥ a2 then 1 else 2
    let major := if idx = 0 then a0 else if idx = 1 then a1 else a2
    if major < 4 / 5 then "oblique"
    else if idx = 0 then "sagittal" else if idx = 1 then "coronal" else "axial"
  | _ => ""

/-- Spec-side reading of the 4D rule: the temporal-positions field is
present, non-empty and parses to an integer greater than 1. -/
def Is4D (o : Option String) : Prop :=
  ∃ v n, o = some v ∧ v ≠ "" ∧ pyInt? v = some n ∧ 1 < n

/-- Spec-side reading of one 3D disjunct: the field is present and parses to
a number below 2.0. -/
def IsLt2 (o : Option String) : Prop :=
  ∃ v x, o = some v ∧ pyFloat? v = some x ∧ x < 2

/-- Magnitudes of the three components of the plane normal (cross product of
row and column direction), as the spec describes them. -/
def crossNormAbs (r0 r1 r2 c0 c1 c2 : Rat) : Nat → Rat :=
  fun j =>
    if j = 0 then |r1 * c2 - r2 * c1|
    else if j = 1 then |r2 * c0 - r0 * c2|
    else |r0 * c1 - r1 * c0|

/-- A CSV row or manifest record: Python dict from column name (or DICOM tag
string) to value, as `csv.DictReader` / the manifest builder produce. -/
abbrev Row := List (String × String)

/-- Python `row.get(c)`. -/
def rowGet? (r : Row) (c : String) : Option String :=
  dictGet r c

/-- Python `row.get(c, d)`. -/
def rowGetD (r : Row) (c d : String) : String :=
  (rowGet? r c).getD d

/-- The FIELDS list: DICOM tag keys of DICOM_FIELD_MAPPING, in order. -/
def FIELDS : List String :=
  ["00100010", "00100030", "00100040", "00101010", "00100020", "00080070",
   "00081090", "00181030", "00189423", "00080020", "00180087", "00080080",
   "00080050", "0020000D", "00200011", "0008103E", "0020000E", "00200037",
   "00540081", "00181310", "00280030", "00180088", "00180050", "00180080",
   "00180081", "00180086", "00180091", "00180082", "00181314", "00080008",
   "00189073", "2001101B", "00201209"]

/-- DICOM_FIELD_MAPPING: tag to column name. -/
def DICOM_FIELD_MAPPING : List (String × String) :=
  [("00100010", "Patient Name"), ("00100030", "Patient Birth Date"),
   ("00100040", "Patient Sex"), ("00101010", "Patient Age"),
   ("00100020", "Patient ID"), ("00080070", "Manufacturer"),
   ("00081090", "Manufacturer's Model Name"), ("00181030", "Protocol Name"),
   ("00189423", "Acquisition Protocol Name"), ("00080020", "Study Date"),
   ("00180087", "Magnetic Field Strength"), ("00080080", "Institution Name"),
   ("00080050", "Accession Number"), ("0020000D", "Study Instance UID"),
   ("00200011", "Series Number"), ("0008103E", "Series Description"),
   ("0020000E", "Series Instance UID"), ("00200037", "Image Orientation (Patient)"),
   ("00540081", "Number of Slices"), ("00181310", "Acquisition Matrix"),
   ("00280030", "Pixel Spacing"), ("00180088", "Spacing Between Slices"),
   ("00180050", "Slice Thickness"), ("00180080", "Repetition Time"),
   ("00180081", "Echo Time"), ("00180086", "Echo Number(s)"),
   ("00180091", "Echo Train Length"), ("00180082", "Inversion Time"),
   ("00181314", "Flip Angle"), ("00080008", "Image Type"),
   ("00189073", "Acquisition Duration"), ("2001101B", "Prepulse Delay"),
   ("00201209", "Number Series Related Instances")]

/-- Column name of a tag: `DICOM_FIELD_MAPPING[tag]`. -/
def colOf (tag : String) : String :=
  (dictGet DICOM_FIELD_MAPPING tag).getD ""

/-- Series key of an existing TSV row:
`row.get("Study Instance UID") or row.get("0020000D", "")`, likewise for the
series column. -/
def keyOf (r : Row) : String × String :=
  (pyOrOpt (rowGet? r "Study Instance UID") (rowGetD r "0020000D" ""),
   pyOrOpt (rowGet? r "Series Instance UID") (rowGetD r "0020000E" ""))

/-- The manifest: series key to record dict, insertion-ordered. -/
abbrev Manifest := List ((String × String) × Row)

/-- Body of the row loop of `merge_existing`: insert a structural record for
an unseen key, then overwrite Example File, Plane Orientation and Annotation
from the TSV row (with the dict's own value as `row.get` default for the
first two, and `""` for Annotation). -/
def merge_row (m : Manifest) (r : Row) : Manifest :=
  let key := keyOf r
  let m1 :=
    match dictGet m key with
    | some _ => m
    | none => dictSet m key (FIELDS.map (fun t => (t, rowGetD r (colOf t) "")))
  let cur := (dictGet m1 key).getD []
  let cur1 := dictSet cur "Example File" ((rowGet? r "Example File").getD (rowGetD cur "Example File" ""))
  let cur2 := dictSet cur1 "Plane Orientation" ((rowGet? r "Plane Orientation").getD (rowGetD cur1 "Plane Orientation" ""))
  let cur3 := dictSet cur2 "Annotation" (rowGetD r "Annotation" "")
  dictSet m1 key cur3

/-- merge_existing from src/extract_dicom_headers.py: `none` models a missing
`series_info.tsv` (return the fresh manifest unchanged), `some rows` the
parsed existing TSV. -/
def merge_existing (old : Option (List Row)) (fresh : Manifest) : Manifest :=
  match old with
  | none => fresh
  | some rows => rows.foldl merge_row fresh

/-! ### Helper lemmas -/

theorem strTake_data (s : String) (n : Nat) : (strTake s n).data = s.data.take n := rfl

theorem strStarts_append (a b : String) : strStarts (a ++ b) a := by
  unfold strStarts
  rw [strData_append]
  exact List.take_left a.data b.data

theorem str_append_empty (a : String) : a ++ String.mk [] = a := by
  apply strExt
  rw [strData_append]
  exact List.append_nil a.data

/-! ### C5: build_protocol_name truncation law -/

set_option maxRecDepth 10000 in
/-- Claim C5 (counterexample): `build_protocol_name` does not always return a
string of length at most 64 — with a 50-character label the prefix alone is
76 characters long and survives whole. -/
theorem build_protocol_name_length_counterexample :
    ¬ ((build_protocol_name "X" "AAAAAAAAAAAAAAAAAAAAAAAAAAAAAAAAAAAAAAAAAAAAAAAAAA"
        "2D" "axial").data.length ≤ 64) := by
  intro h
  have e : (build_protocol_name "X" "AAAAAAAAAAAAAAAAAAAAAAAAAAAAAAAAAAAAAAAAAAAAAAAAAA"
      "2D" "axial").data.length = 76 := rfl
  rw [e] at h
  omega

/-- Claim C5 (amended): `build_protocol_name` returns prefix plus truncated
original with the prefix always intact; whenever the prefix length is at most
64, the result length is exactly prefix length plus
`min (length original) (64 - prefix length)` — hence at most 64 — and when
the prefix alone reaches or exceeds 64 the original is dropped entirely, the
result being exactly the (possibly longer than 64) prefix. -/
theorem build_protocol_name_truncation_amended (orig annot dim plane : String) :
    strStarts (build_protocol_name orig annot dim plane) (protoPfx annot dim plane)
  ∧ ((protoPfx annot dim plane).data.length ≤ 64 →
      (build_protocol_name orig annot dim plane).data.length
        = (protoPfx annot dim plane).data.length
          + min orig.data.length (64 - (protoPfx annot dim plane).data.length)
      ∧ (build_protocol_name orig annot dim plane).data.length ≤ 64)
  ∧ (64 ≤ (protoPfx annot dim plane).data.length →
      build_protocol_name orig annot dim plane = protoPfx annot dim plane) := by
  have hlaw : build_protocol_name orig annot dim plane
      = protoPfx annot dim plane
        ++ strTake orig
            (max ((PROTO_MAX_LEN : Int) - ((protoPfx annot dim plane).data.length : Int)) 0).toNat := rfl
  refine ⟨?_, fun h => ?_, fun h => ?_⟩
  · rw [hlaw]
    exact strStarts_append _ _
  · have hk : (max ((PROTO_MAX_LEN : Int) - ((protoPfx annot dim plane).data.length : Int)) 0).toNat
        = 64 - (protoPfx annot dim plane).data.length := by
      unfold PROTO_MAX_LEN
      omega
    rw [hlaw, strData_append, List.length_append, strTake_data, List.length_take, hk]
    constructor
    · rw [Nat.min_comm]
    · have := Nat.min_le_left (64 - (protoPfx annot dim plane).data.length) orig.data.length
      omega
  · have hk : (max ((PROTO_MAX_LEN : Int) - ((protoPfx annot dim plane).data.length : Int)) 0).toNat
        = 0 := by
      unfold PROTO_MAX_LEN
      omega
    rw [hlaw, hk]
    have e : strTake orig 0 = String.mk [] := rfl
    rw [e, str_append_empty]

/-- Claim C5 (witness): concrete instantiation of the amended truncation
law, at a prefix of length 27. -/
theorem build_protocol_name_truncation_witness :
    (build_protocol_name "MPRAGE" "t1" "3D" "ax").data.length ≤ 64 :=
  ((build_protocol_name_truncation_amended "MPRAGE" "t1" "3D" "ax").2.1 (by decide)).2

/-! ### C6: classify_acq_dim -/

theorem ntpIs4D_iff (o : Option String) : ntpIs4D o = true ↔ Is4D o := by
  cases o with
  | none =>
    simp [ntpIs4D, Is4D]
  | some v =>
    simp only [ntpIs4D]
    by_cases h0 : v = "" ∨ v = "0"
    · rw [if_pos h0]
      refine iff_of_false (by simp) ?_
      rintro ⟨w, n, hw, hne, hp, hn⟩
      obtain rfl : v = w := Option.some.inj hw
      rcases h0 with h | h
      · exact hne h
      · subst h
        have e : pyInt? "0" = some 0 := rfl
        rw [e] at hp
        obtain rfl : (0 : Int) = n := Option.some.inj hp
        omega
    · rw [if_neg h0]
      cases hp : pyInt? v with
      | none =>
        simp only [hp]
        refine iff_of_false (by simp) ?_
        rintro ⟨w, n, hw, hne, hpw, hn⟩
        obtain rfl : v = w := Option.some.inj hw
        rw [hp] at hpw
        exact Option.noConfusion hpw
      | some n =>
        simp only [hp]
        constructor
        · intro h
          exact ⟨v, n, rfl, fun hv => h0 (Or.inl hv), hp, of_decide_eq_true h⟩
        · rintro ⟨w, n2, hw, hne, hpw, hn⟩
          obtain rfl : v = w := Option.some.inj hw
          rw [hp] at hpw
          obtain rfl : n = n2 := Option.some.inj hpw
          exact decide_eq_true hn

theorem floatLt2_iff (o : Option String) : floatLt2 o = true ↔ IsLt2 o := by
  cases o with
  | none =>
    simp [floatLt2, IsLt2]
  | some v =>
    simp only [floatLt2]
    cases hp : pyFloat? v with
    | none =>
      simp only [hp]
      refine iff_of_false (by simp) ?_
      rintro ⟨w, x, hw, hpw, hx⟩
      obtain rfl : v = w := Option.some.inj hw
      rw [hp] at hpw
      exact Option.noConfusion hpw
    | some x =>
      simp only [hp]
      constructor
      · intro h
        exact ⟨v, x, rfl, hp, of_decide_eq_true h⟩
      · rintro ⟨w, y, hw, hpw, hy⟩
        obtain rfl : v = w := Option.some.inj hw
        rw [hp] at hpw
        obtain rfl : x = y := Option.some.inj hpw
        exact decide_eq_true hy

unseal Rat.add Rat.mul Rat.sub Rat.inv Nat.gcd in
/-- Claim C6: `classify_acq_dim` returns 4D exactly when the
temporal-positions field is present, non-empty and parses to an integer
greater than 1; else 3D exactly when slice thickness or
spacing-between-slices parses to a number below 2.0 (a missing or
unparseable value never satisfies its disjunct); else 2D — never raising —
and it satisfies the three spec scenarios. -/
theorem classify_acq_dim_spec :
    (∀ ds : Dataset,
      (classify_acq_dim ds = "4D" ↔ Is4D ds.numberOfTemporalPositions)
      ∧ (classify_acq_dim ds = "3D" ↔
          ¬ Is4D ds.numberOfTemporalPositions ∧
            (IsLt2 ds.sliceThickness ∨ IsLt2 ds.spacingBetweenSlices))
      ∧ (classify_acq_dim ds = "2D" ↔
          ¬ Is4D ds.numberOfTemporalPositions ∧
            ¬ IsLt2 ds.sliceThickness ∧ ¬ IsLt2 ds.spacingBetweenSlices))
  ∧ classify_acq_dim ⟨some "S1", none, some "1.5", none, none⟩ = "3D"
  ∧ classify_acq_dim ⟨some "S2", some "4", some "5.0", none, none⟩ = "4D"
  ∧ classify_acq_dim ⟨some "S3", none, some "4.0", none, none⟩ = "2D" := by
  refine ⟨fun ds => ?_, by decide, by decide, by decide⟩
  have h4 := ntpIs4D_iff ds.numberOfTemporalPositions
  have hst := floatLt2_iff ds.sliceThickness
  have hsb := floatLt2_iff ds.spacingBetweenSlices
  unfold classify_acq_dim
  by_cases b4 : ntpIs4D ds.numberOfTemporalPositions = true
  · rw [if_pos b4]
    have hi := h4.mp b4
    exact ⟨iff_of_true rfl hi,
           iff_of_false (by decide) (fun hc => hc.1 hi),
           iff_of_false (by decide) (fun hc => hc.1 hi)⟩
  · rw [if_neg b4]
    have hn4 : ¬ Is4D ds.numberOfTemporalPositions := fun hi => b4 (h4.mpr hi)
    by_cases b3 : (floatLt2 ds.sliceThickness || floatLt2 ds.spacingBetweenSlices) = true
    · rw [if_pos b3]
      simp only [Bool.or_eq_true] at b3
      have hor : IsLt2 ds.sliceThickness ∨ IsLt2 ds.spacingBetweenSlices := by
        rcases b3 with h | h
        · exact Or.inl (hst.mp h)
        · exact Or.inr (hsb.mp h)
      refine ⟨iff_of_false (by decide) hn4, iff_of_true rfl ⟨hn4, hor⟩,
              iff_of_false (by decide) ?_⟩
      rintro ⟨h1, h2, h3⟩
      rcases hor with h | h
      · exact h2 h
      · exact h3 h
    · rw [if_neg b3]
      simp only [Bool.or_eq_true] at b3
      push_neg at b3
      refine ⟨iff_of_false (by decide) hn4, iff_of_false (by decide) ?_,
              iff_of_true rfl ⟨hn4, fun h => b3.1 (hst.mpr h), fun h => b3.2 (hsb.mpr h)⟩⟩
      rintro ⟨h1, h2⟩
      rcases h2 with h | h
      · exact b3.1 (hst.mpr h)
      · exact b3.2 (hsb.mpr h)

/-- Claim C6 (witness): the thickness-1.5 scenario, through the theorem. -/
theorem classify_acq_dim_spec_witness :
    classify_acq_dim ⟨some "S1", none, some "1.5", none, none⟩ = "3D" :=
  classify_acq_dim_spec.2.1

/-! ### C7: determine_plane -/

unseal Rat.add Rat.mul Rat.sub Rat.inv Nat.gcd in
/-- Claim C7: `determine_plane` returns the empty string on any vector whose
length is not 6, and on a 6-vector picks the first index of maximal magnitude
of the cross-product normal, answering `oblique` below 0.8 and otherwise
sagittal/coronal/axial for index 0/1/2; the two spec scenarios hold. -/
theorem determine_plane_spec :
    (∀ ori : List Rat, ori.length ≠ 6 → determine_plane ori = "")
  ∧ (∀ r0 r1 r2 c0 c1 c2 : Rat,
      ∃ idx : Nat, idx < 3
        ∧ (∀ j : Nat, j < 3 →
            crossNormAbs r0 r1 r2 c0 c1 c2 j ≤ crossNormAbs r0 r1 r2 c0 c1 c2 idx)
        ∧ (∀ j : Nat, j < idx →
            crossNormAbs r0 r1 r2 c0 c1 c2 j < crossNormAbs r0 r1 r2 c0 c1 c2 idx)
        ∧ determine_plane [r0, r1, r2, c0, c1, c2]
            = (if crossNormAbs r0 r1 r2 c0 c1 c2 idx < 4 / 5 then "oblique"
               else if idx = 0 then "sagittal" else if idx = 1 then "coronal" else "axial"))
  ∧ determine_plane [1, 0, 0, 0, 1, 0] = "axial"
  ∧ determine_plane [7 / 10, 7 / 10, 0, 0, 0, 1] = "oblique" := by
  refine ⟨?_, ?_, by decide, by decide⟩
  · intro ori h
    exact match ori, h with
    | [], _ => rfl
    | [a], _ => rfl
    | [a, b], _ => rfl
    | [a, b, c], _ => rfl
    | [a, b, c, d], _ => rfl
    | [a, b, c, d, e], _ => rfl
    | [a, b, c, d, e, f], h => absurd rfl h
    | a :: b :: c :: d :: e :: f :: g :: t, _ => rfl
  · intro r0 r1 r2 c0 c1 c2
    by_cases hA : |r1 * c2 - r2 * c1| ≥ |r2 * c0 - r0 * c2|
        ∧ |r1 * c2 - r2 * c1| ≥ |r0 * c1 - r1 * c0|
    · refine ⟨0, by omega, ?_, ?_, ?_⟩
      · intro j hj
        interval_cases j
        · simp [crossNormAbs]
        · simpa [crossNormAbs] using hA.1
        · simpa [crossNormAbs] using hA.2
      · intro j hj
        exact absurd hj (Nat.not_lt_zero j)
      · simp only [determine_plane]
        rw [if_pos hA]
        simp [crossNormAbs]
    · by_cases hB : |r2 * c0 - r0 * c2| ≥ |r0 * c1 - r1 * c0|
      · have h01 : |r1 * c2 - r2 * c1| < |r2 * c0 - r0 * c2| := by
          rcases not_and_or.mp hA with h | h
          · exact not_le.mp h
          · exact lt_of_lt_of_le (not_le.mp h) hB
        refine ⟨1, by omega, ?_, ?_, ?_⟩
        · intro j hj
          interval_cases j
          · simpa [crossNormAbs] using le_of_lt h01
          · simp [crossNormAbs]
          · simpa [crossNormAbs] using hB
        · intro j hj
          interval_cases j
          · simpa [crossNormAbs] using h01
        · simp only [determine_plane]
          rw [if_neg hA, if_pos hB]
          simp [crossNormAbs]
      · have h12 : |r2 * c0 - r0 * c2| < |r0 * c1 - r1 * c0| := not_le.mp hB
        have h02 : |r1 * c2 - r2 * c1| < |r0 * c1 - r1 * c0| := by
          rcases not_and_or.mp hA with h | h
          · exact lt_trans (not_le.mp h) h12
          · exact not_le.mp h
        refine ⟨2, by omega, ?_, ?_, ?_⟩
        · intro j hj
          interval_cases j
          · simpa [crossNormAbs] using le_of_lt h02
          · simpa [crossNormAbs] using le_of_lt h12
          · simp [crossNormAbs]
        · intro j hj
          interval_cases j
          · simpa [crossNormAbs] using h02
          · simpa [crossNormAbs] using h12
        · simp only [determine_plane]
          rw [if_neg hA, if_neg hB]
          simp [crossNormAbs]

/-- Claim C7 (witness): a length-3 vector yields the empty string, through
the theorem. -/
theorem determine_plane_spec_witness : determine_plane [(1 : Rat), 0, 0] = "" :=
  determine_plane_spec.1 [1, 0, 0] (by decide)

/-! ### C8: DELETE label quarantine -/

set_option maxRecDepth 100000 in
/-- Claim C8: for a readable file whose series UID maps to a label whose
uppercasing is the delete sentinel, `handle_file` relocates the file (content
untouched) to the quarantine subtree at the same relative path and reports
`moved`; and the 3-file DELETE scenario ends with all three files under
quarantine and counts `moved = 3`. -/
theorem handle_file_delete_moves (m : UidMap) (p : List String) (ds : Dataset)
    (uid annot plane : String)
    (huid : ds.seriesInstanceUID = some uid)
    (hmap : dictGet m uid = some (annot, plane))
    (hdel : strUpper annot = "DELETE") :
    (handle_file m ⟨p, .dicom ds⟩
      = (.moved, ⟨"WAITING_DELETION" :: p, .dicom ds⟩))
  ∧ run_apply [("u", ("DELETE", "ax"))]
      [⟨["a", "1.dcm"], .dicom ⟨some "u", none, none, none, some "X"⟩⟩,
       ⟨["a", "2.dcm"], .dicom ⟨some "u", none, none, none, some "Y"⟩⟩,
       ⟨["b", "3.ima"], .dicom ⟨some "u", none, none, none, some "Z"⟩⟩]
      = (⟨0, 3, 0, 0, 0⟩,
         [⟨["WAITING_DELETION", "a", "1.dcm"], .dicom ⟨some "u", none, none, none, some "X"⟩⟩,
          ⟨["WAITING_DELETION", "a", "2.dcm"], .dicom ⟨some "u", none, none, none, some "Y"⟩⟩,
          ⟨["WAITING_DELETION", "b", "3.ima"], .dicom ⟨some "u", none, none, none, some "Z"⟩⟩]) := by
  constructor
  · simp only [handle_file, huid, hmap]
    rw [if_pos hdel]
  · decide

/-- Claim C8 (witness): one concrete DELETE-labeled file is moved. -/
theorem handle_file_delete_moves_witness :
    handle_file [("u", ("DELETE", "ax"))]
        ⟨["a", "1.dcm"], .dicom ⟨some "u", none, none, none, some "X"⟩⟩
      = (.moved, ⟨["WAITING_DELETION", "a", "1.dcm"],
          .dicom ⟨some "u", none, none, none, some "X"⟩⟩) :=
  (handle_file_delete_moves [("u", ("DELETE", "ax"))] ["a", "1.dcm"]
    ⟨some "u", none, none, none, some "X"⟩ "u" "DELETE" "ax" rfl rfl (by decide)).1

/-! ### C2: error handling -/

theorem handle_file_io_ok (m : UidMap) (f : FsFile) :
    handle_file_io ⟨false, false⟩ m f = (.ok (handle_file m f), false) := by
  obtain ⟨p, e⟩ := f
  cases e with
  | unreadable => rfl
  | dicom ds =>
    cases huid : ds.seriesInstanceUID with
    | none => simp [handle_file_io, handle_file, huid]
    | some uid =>
      cases hm : dictGet m uid with
      | none => simp [handle_file_io, handle_file, huid, hm]
      | some pr =>
        obtain ⟨annot, plane⟩ := pr
        by_cases hd : strUpper annot = "DELETE"
        · simp [handle_file_io, handle_file, huid, hm, hd]
        · by_cases hq : build_protocol_name (ds.protocolName.getD "") (pyOr annot "UNKNOWN")
              (classify_acq_dim ds) (pyOr plane "UNKNOWN") = ds.protocolName.getD ""
          · simp [handle_file_io, handle_file, huid, hm, hd, hq]
          · simp [handle_file_io, handle_file, huid, hm, hd, hq]

theorem handle_file_io_no_tmp (fl : IOFlags) (m : UidMap) (f : FsFile) :
    (handle_file_io fl m f).2 = false := by
  obtain ⟨p, e⟩ := f
  cases e with
  | unreadable => rfl
  | dicom ds =>
    cases huid : ds.seriesInstanceUID with
    | none => simp [handle_file_io, huid]
    | some uid =>
      cases hm : dictGet m uid with
      | none => simp [handle_file_io, huid, hm]
      | some pr =>
        obtain ⟨annot, plane⟩ := pr
        by_cases hd : strUpper annot = "DELETE"
        · cases hmv : fl.moveFails <;> simp [handle_file_io, huid, hm, hd, hmv]
        · by_cases hq : build_protocol_name (ds.protocolName.getD "") (pyOr annot "UNKNOWN")
              (classify_acq_dim ds) (pyOr plane "UNKNOWN") = ds.protocolName.getD ""
          · simp [handle_file_io, huid, hm, hd, hq]
          · cases hw : fl.writeFails <;> simp [handle_file_io, huid, hm, hd, hq, hw]

set_option maxRecDepth 100000 in
/-- Claim C2 (counterexample): with one enumerated, readable, labelled file
whose staging write raises, the run aborts (the exception propagates out of
the counting loop) instead of reporting `error` and finishing. -/
theorem run_write_failure_counterexample :
    exceptIsOk (run_apply_io (fun _ => ⟨true, true⟩) [("u", ("A", "axial"))]
      [⟨["f.dcm"], .dicom ⟨some "u", none, none, none, some "X"⟩⟩]) = false := by
  decide

/-- Claim C2 (amended): only the initial `dcmread` is guarded per-file — an
unreadable file yields outcome `error` and the run continues; when no OS
write/move call raises, the run completes exactly as the pure model does;
and the staging temp artifact is never left behind (the `finally` clause).
A staging, replace or quarantine-move failure, however, propagates and
aborts the run. -/
theorem run_error_handling_amended (m : UidMap) :
    (∀ tree : List FsFile,
        run_apply_io (fun _ => ⟨false, false⟩) m tree = .ok (run_apply m tree))
  ∧ (∀ fl : IOFlags, ∀ p : List String,
        handle_file_io fl m ⟨p, .unreadable⟩ = (.ok (.error, ⟨p, .unreadable⟩), false))
  ∧ (∀ fl : IOFlags, ∀ f : FsFile, (handle_file_io fl m f).2 = false) := by
  refine ⟨?_, fun fl p => rfl, fun fl f => handle_file_io_no_tmp fl m f⟩
  intro tree
  induction tree with
  | nil => rfl
  | cons f rest ih =>
    by_cases h : enumeratedName (fileName f.path) = true
    · simp [run_apply_io, run_apply, h, handle_file_io_ok, ih]
    · simp only [Bool.not_eq_true] at h
      simp [run_apply_io, run_apply, h, ih]

/-! ### C9: UNKNOWN substitution for empty label or plane -/

theorem str_append_assoc (a b c : String) : a ++ b ++ c = a ++ (b ++ c) := by
  apply strExt
  simp [strData_append, List.append_assoc]

theorem protoPfx_as_append (annot dim plane : String) :
    protoPfx annot dim plane
      = "seq_" ++ (annot ++ ("_acq_" ++ (dim ++ ("_plane_" ++ (plane ++ "___"))))) := by
  unfold protoPfx
  simp only [str_append_assoc]

theorem bpn_as_append (orig annot dim plane : String) :
    build_protocol_name orig annot dim plane
      = protoPfx annot dim plane
        ++ strTake orig
            (max ((PROTO_MAX_LEN : Int) - ((protoPfx annot dim plane).data.length : Int)) 0).toNat := rfl

/-- Any protocol name built with the label UNKNOWN begins with the literal
characters `seq_UNKNOWN_`. -/
theorem bpn_unknown_starts (orig dim plane : String) :
    strStarts (build_protocol_name orig "UNKNOWN" dim plane) "seq_UNKNOWN_" := by
  rw [bpn_as_append, protoPfx_as_append]
  have l1 : ∀ X : String, "seq_" ++ ("UNKNOWN" ++ ("_acq_" ++ X)) = "seq_UNKNOWN_" ++ ("acq_" ++ X) := by
    intro X
    calc "seq_" ++ ("UNKNOWN" ++ ("_acq_" ++ X))
        = "seq_" ++ "UNKNOWN" ++ "_acq_" ++ X := by rw [str_append_assoc, str_append_assoc]
      _ = "seq_UNKNOWN_" ++ "acq_" ++ X := rfl
      _ = "seq_UNKNOWN_" ++ ("acq_" ++ X) := str_append_assoc _ _ _
  rw [l1, str_append_assoc]
  exact strStarts_append _ _

/-- Claim C9: a readable file whose manifest label is empty is not skipped —
its outcome is `edited` or `unchanged` and the (re)written ProtocolName
begins with `seq_UNKNOWN_`; likewise an empty plane is replaced by UNKNOWN in
the written prefix. -/
theorem handle_file_unknown_substitution (m : UidMap) (p : List String) (ds : Dataset)
    (uid : String) (huid : ds.seriesInstanceUID = some uid) :
    (∀ plane : String, dictGet m uid = some ("", plane) →
      ((handle_file m ⟨p, .dicom ds⟩).1 = .edited ∨ (handle_file m ⟨p, .dicom ds⟩).1 = .unchanged)
      ∧ ∃ ds2 : Dataset, (handle_file m ⟨p, .dicom ds⟩).2.entry = .dicom ds2
          ∧ strStarts (ds2.protocolName.getD "") "seq_UNKNOWN_")
  ∧ (∀ annot : String, dictGet m uid = some (annot, "") → strUpper annot ≠ "DELETE" →
      ((handle_file m ⟨p, .dicom ds⟩).1 = .edited ∨ (handle_file m ⟨p, .dicom ds⟩).1 = .unchanged)
      ∧ ∃ ds2 : Dataset, (handle_file m ⟨p, .dicom ds⟩).2.entry = .dicom ds2
          ∧ strStarts (ds2.protocolName.getD "")
              (protoPfx (pyOr annot "UNKNOWN") (classify_acq_dim ds) "UNKNOWN")) := by
  constructor
  · intro plane hmap
    have hne : strUpper "" ≠ "DELETE" := by decide
    simp only [handle_file, huid, hmap]
    rw [if_neg hne]
    have hu : pyOr "" "UNKNOWN" = "UNKNOWN" := rfl
    rw [hu]
    by_cases he : build_protocol_name (ds.protocolName.getD "") "UNKNOWN"
        (classify_acq_dim ds) (pyOr plane "UNKNOWN") = ds.protocolName.getD ""
    · rw [if_pos he]
      exact ⟨Or.inr rfl, ds, rfl, he ▸ bpn_unknown_starts _ _ _⟩
    · rw [if_neg he]
      refine ⟨Or.inl rfl, _, rfl, ?_⟩
      exact bpn_unknown_starts _ _ _
  · intro annot hmap hdel
    simp only [handle_file, huid, hmap]
    rw [if_neg hdel]
    have hu : pyOr "" "UNKNOWN" = "UNKNOWN" := rfl
    rw [hu]
    by_cases he : build_protocol_name (ds.protocolName.getD "") (pyOr annot "UNKNOWN")
        (classify_acq_dim ds) "UNKNOWN" = ds.protocolName.getD ""
    · rw [if_pos he]
      refine ⟨Or.inr rfl, ds, rfl, ?_⟩
      rw [← he, bpn_as_append]
      exact strStarts_append _ _
    · rw [if_neg he]
      refine ⟨Or.inl rfl, _, rfl, ?_⟩
      rw [bpn_as_append]
      exact strStarts_append _ _

/-- Claim C9 (witness): a file of an unlabeled series is edited and its new
name starts with `seq_UNKNOWN_`. -/
theorem handle_file_unknown_substitution_witness :
    ((handle_file [("u", ("", "axial"))]
        ⟨["f.dcm"], .dicom ⟨some "u", none, none, none, some "X"⟩⟩).1 = .edited
      ∨ (handle_file [("u", ("", "axial"))]
        ⟨["f.dcm"], .dicom ⟨some "u", none, none, none, some "X"⟩⟩).1 = .unchanged)
    ∧ ∃ ds2 : Dataset, (handle_file [("u", ("", "axial"))]
        ⟨["f.dcm"], .dicom ⟨some "u", none, none, none, some "X"⟩⟩).2.entry = .dicom ds2
      ∧ strStarts (ds2.protocolName.getD "") "seq_UNKNOWN_" :=
  (handle_file_unknown_substitution [("u", ("", "axial"))] ["f.dcm"]
    ⟨some "u", none, none, none, some "X"⟩ "u" rfl).1 "axial" rfl

/-! ### C1: the apply engine is not idempotent -/

/-- If prepending `p` to a `k`-truncation fixes it, the truncations of the
original and of `p` agree up to `min k (length p)`. -/
theorem fixed_point_takes (p o : List Char) (k : Nat)
    (h : p ++ (p ++ o.take k).take k = p ++ o.take k) :
    o.take (min k p.length) = p.take (min k p.length) := by
  have h2 : (p ++ o.take k).take k = o.take k := List.append_cancel_left h
  by_cases hp : k ≤ p.length
  · rw [min_eq_left hp]
    rw [List.take_append_eq_append_take] at h2
    have hz : k - p.length = 0 := by omega
    rw [hz] at h2
    simp only [List.take_zero, List.append_nil] at h2
    exact h2.symm
  · push_neg at hp
    rw [min_eq_right (le_of_lt hp)]
    rw [List.take_append_eq_append_take,
        List.take_of_length_le (le_of_lt hp)] at h2
    have h3 : (o.take k).take p.length = p := by
      rw [← h2]
      exact List.take_left p _
    rw [List.take_take, min_eq_left (le_of_lt hp)] at h3
    rw [h3]
    exact (List.take_length _).symm

set_option maxRecDepth 100000 in
/-- Claim C1 (counterexample): one labelled readable file; the first run
edits it, and a second run on the resulting tree reports `edited` again
(count 1, not the claimed 0) because the prefix is prepended a second time. -/
theorem apply_second_run_counterexample :
    (run_apply [("u", ("A", "axial"))]
        [⟨["f.dcm"], .dicom ⟨some "u", none, none, none, some "X"⟩⟩]).1.edited = 1
  ∧ ¬ ((run_apply [("u", ("A", "axial"))]
        (run_apply [("u", ("A", "axial"))]
          [⟨["f.dcm"], .dicom ⟨some "u", none, none, none, some "X"⟩⟩]).2).1.edited = 0) := by
  exact ⟨by decide, by decide⟩

/-- Claim C1 (amended): a second run reports `unchanged` for a file the
first run edited exactly when `build_protocol_name` maps the rewritten name
to itself.  That fixed point is reached whenever the prefix alone is at
least 64 characters; but whenever the prefix is shorter than 64 and the
original ProtocolName does not already start with the corresponding prefix
truncation, re-applying `build_protocol_name` changes the name again — the
engine is not idempotent in general. -/
theorem apply_second_run_fixed_point :
    (∀ (m : UidMap) (p : List String) (ds : Dataset) (uid annot plane np : String)
        (ds2 : Dataset),
      ds.seriesInstanceUID = some uid →
      dictGet m uid = some (annot, plane) →
      strUpper annot ≠ "DELETE" →
      np = build_protocol_name (ds.protocolName.getD "") (pyOr annot "UNKNOWN")
          (classify_acq_dim ds) (pyOr plane "UNKNOWN") →
      ds2 = ⟨ds.seriesInstanceUID, ds.numberOfTemporalPositions, ds.sliceThickness,
          ds.spacingBetweenSlices, some np⟩ →
      ((handle_file m ⟨p, .dicom ds2⟩).1 = .unchanged ↔
        build_protocol_name np (pyOr annot "UNKNOWN") (classify_acq_dim ds)
          (pyOr plane "UNKNOWN") = np))
  ∧ (∀ orig annot dim plane : String,
      64 ≤ (protoPfx annot dim plane).data.length →
      build_protocol_name (build_protocol_name orig annot dim plane) annot dim plane
        = build_protocol_name orig annot dim plane)
  ∧ (∀ orig annot dim plane : String,
      (protoPfx annot dim plane).data.length < 64 →
      strTake orig (min (64 - (protoPfx annot dim plane).data.length)
          (protoPfx annot dim plane).data.length)
        ≠ strTake (protoPfx annot dim plane)
            (min (64 - (protoPfx annot dim plane).data.length)
              (protoPfx annot dim plane).data.length) →
      build_protocol_name (build_protocol_name orig annot dim plane) annot dim plane
        ≠ build_protocol_name orig annot dim plane) := by
  refine ⟨?_, ?_, ?_⟩
  · intro m p ds uid annot plane np ds2 huid hmap hdel hnp hds2
    subst hds2
    simp only [handle_file, huid, hmap, Option.getD_some]
    rw [if_neg hdel]
    have hcls : classify_acq_dim ⟨some uid, ds.numberOfTemporalPositions,
        ds.sliceThickness, ds.spacingBetweenSlices, some np⟩ = classify_acq_dim ds := rfl
    rw [hcls]
    by_cases hfix : build_protocol_name np (pyOr annot "UNKNOWN") (classify_acq_dim ds)
        (pyOr plane "UNKNOWN") = np
    · rw [if_pos hfix]
      exact iff_of_true rfl hfix
    · rw [if_neg hfix]
      exact iff_of_false (fun hcon => Outcome.noConfusion hcon) hfix
  · intro orig annot dim plane hge
    have hk0 : (max ((PROTO_MAX_LEN : Int) - ((protoPfx annot dim plane).data.length : Int)) 0).toNat
        = 0 := by
      unfold PROTO_MAX_LEN
      omega
    simp only [bpn_as_append, hk0]
    have e0 : ∀ s : String, strTake s 0 = String.mk [] := fun s => rfl
    simp only [e0]
  · intro orig annot dim plane hlt hne hcon
    have hk : (max ((PROTO_MAX_LEN : Int) - ((protoPfx annot dim plane).data.length : Int)) 0).toNat
        = 64 - (protoPfx annot dim plane).data.length := by
      unfold PROTO_MAX_LEN
      omega
    simp only [bpn_as_append, hk] at hcon
    have hdata := congrArg String.data hcon
    simp only [strData_append, strTake_data] at hdata
    have hfix := fixed_point_takes (protoPfx annot dim plane).data orig.data
      (64 - (protoPfx annot dim plane).data.length) hdata
    apply hne
    apply strExt
    simp only [strTake_data]
    exact hfix

set_option maxRecDepth 10000 in
/-- Claim C1 (witness): with a 50-character label the prefix reaches 64, and
re-applying the rewrite indeed leaves the name unchanged. -/
theorem apply_second_run_witness :
    build_protocol_name (build_protocol_name "X"
        "AAAAAAAAAAAAAAAAAAAAAAAAAAAAAAAAAAAAAAAAAAAAAAAAAA" "2D" "axial")
        "AAAAAAAAAAAAAAAAAAAAAAAAAAAAAAAAAAAAAAAAAAAAAAAAAA" "2D" "axial"
      = build_protocol_name "X" "AAAAAAAAAAAAAAAAAAAAAAAAAAAAAAAAAAAAAAAAAAAAAAAAAA"
          "2D" "axial" :=
  apply_second_run_fixed_point.2.1 "X" "AAAAAAAAAAAAAAAAAAAAAAAAAAAAAAAAAAAAAAAAAAAAAAAAAA"
    "2D" "axial" (by decide)

/-! ### C3 and C4: merge_existing -/

theorem dictGet_dictSet_self {K V : Type} [DecidableEq K] (m : List (K × V)) (k : K) (v : V) :
    dictGet (dictSet m k v) k = some v := by
  induction m with
  | nil => simp [dictSet, dictGet]
  | cons e rest ih =>
    obtain ⟨k2, w⟩ := e
    by_cases h : k2 = k
    · simp [dictSet, dictGet, h]
    · simp [dictSet, dictGet, h, ih]

theorem dictGet_dictSet_ne {K V : Type} [DecidableEq K] (m : List (K × V)) (k : K) (v : V)
    (k2 : K) (h : k ≠ k2) : dictGet (dictSet m k v) k2 = dictGet m k2 := by
  induction m with
  | nil => simp [dictSet, dictGet, h]
  | cons e rest ih =>
    obtain ⟨k3, w⟩ := e
    by_cases h3 : k3 = k
    · subst h3
      simp [dictSet, dictGet, h]
    · simp [dictSet, dictGet, h3, ih]

/-- A row for another key never touches this key's binding. -/
theorem merge_row_other (m : Manifest) (r : Row) (key : String × String)
    (h : keyOf r ≠ key) : dictGet (merge_row m r) key = dictGet m key := by
  unfold merge_row
  cases hc : dictGet m (keyOf r) with
  | some cur =>
    simp only [hc]
    exact dictGet_dictSet_ne _ _ _ _ h
  | none =>
    simp only [hc]
    rw [dictGet_dictSet_ne _ _ _ _ h]
    exact dictGet_dictSet_ne _ _ _ _ h

/-- A run of rows for other keys never touches this key's binding. -/
theorem merge_fold_other (rows : List Row) (m : Manifest) (key : String × String)
    (h : ∀ q ∈ rows, keyOf q ≠ key) :
    dictGet (rows.foldl merge_row m) key = dictGet m key := by
  induction rows generalizing m with
  | nil => rfl
  | cons r rest ih =>
    rw [List.foldl_cons, ih _ (fun q hq => h q (List.mem_cons_of_mem r hq)),
        merge_row_other m r key (h r (List.mem_cons_self r rest))]

/-- Effect of a row whose key is already bound (the fresh-scan case), when
the row carries the Example File, Plane Orientation and Annotation columns:
those three entries are overwritten from the row, everything else kept. -/
theorem merge_row_hit (m : Manifest) (r : Row) (fr : Row) (e pl a : String)
    (hfr : dictGet m (keyOf r) = some fr)
    (he : rowGet? r "Example File" = some e)
    (hpl : rowGet? r "Plane Orientation" = some pl)
    (ha : rowGet? r "Annotation" = some a) :
    dictGet (merge_row m r) (keyOf r)
      = some (dictSet (dictSet (dictSet fr "Example File" e) "Plane Orientation" pl)
          "Annotation" a) := by
  unfold merge_row
  simp only [hfr, Option.getD_some, rowGetD, he, hpl, ha]
  exact dictGet_dictSet_self _ _ _

/-- Effect of any row on its own key: afterwards the key is bound, and the
record's Annotation is exactly the row's (default empty). -/
theorem merge_row_annotation (m : Manifest) (r : Row) :
    ∃ rec : Row, dictGet (merge_row m r) (keyOf r) = some rec
      ∧ dictGet rec "Annotation" = some (rowGetD r "Annotation" "") := by
  unfold merge_row
  cases hc : dictGet m (keyOf r) with
  | some cur =>
    simp only [hc, Option.getD_some]
    exact ⟨_, dictGet_dictSet_self _ _ _, dictGet_dictSet_self _ _ _⟩
  | none =>
    simp only [hc, dictGet_dictSet_self, Option.getD_some]
    exact ⟨_, rfl, dictGet_dictSet_self _ _ _⟩

/-- Claim C3 (counterexample): for a key present in both, the merged record's
Example File (and Plane Orientation) is the OLD manifest's value, not the
fresh scan's as claimed. -/
theorem merge_structural_fields_counterexample :
    rowGet? ((dictGet (merge_existing
        (some [[("Study Instance UID", "S"), ("Series Instance UID", "U"),
                ("Example File", "old.dcm"), ("Plane Orientation", "coronal"),
                ("Annotation", "t1")]])
        [(("S", "U"), [("Example File", "new.dcm"), ("Plane Orientation", "axial")])])
      ("S", "U")).getD []) "Example File" = some "old.dcm"
  ∧ ¬ (rowGet? ((dictGet (merge_existing
        (some [[("Study Instance UID", "S"), ("Series Instance UID", "U"),
                ("Example File", "old.dcm"), ("Plane Orientation", "coronal"),
                ("Annotation", "t1")]])
        [(("S", "U"), [("Example File", "new.dcm"), ("Plane Orientation", "axial")])])
      ("S", "U")).getD []) "Example File" = some "new.dcm") := by
  exact ⟨by decide, by decide⟩

/-- Claim C3 (amended): for a series key present in both the fresh scan and
the old TSV (whose row, as written by the tool, carries the Example File,
Plane Orientation and Annotation columns), the merged record keeps every
fresh metadata entry unchanged, while its Example File, Plane Orientation
AND Annotation are all taken from the old manifest row. -/
theorem merge_structural_fields_amended (pre post : List Row) (fresh : Manifest)
    (key : String × String) (r fr : Row) (e pl a : String)
    (hpre : ∀ q ∈ pre, keyOf q ≠ key) (hpost : ∀ q ∈ post, keyOf q ≠ key)
    (hkey : keyOf r = key)
    (hfr : dictGet fresh key = some fr)
    (he : rowGet? r "Example File" = some e)
    (hpl : rowGet? r "Plane Orientation" = some pl)
    (ha : rowGet? r "Annotation" = some a) :
    dictGet (merge_existing (some (pre ++ r :: post)) fresh) key
      = some (dictSet (dictSet (dictSet fr "Example File" e) "Plane Orientation" pl)
          "Annotation" a)
  ∧ ∀ c : String, c ≠ "Example File" → c ≠ "Plane Orientation" → c ≠ "Annotation" →
      dictGet (dictSet (dictSet (dictSet fr "Example File" e) "Plane Orientation" pl)
          "Annotation" a) c
        = dictGet fr c := by
  constructor
  · show dictGet ((pre ++ r :: post).foldl merge_row fresh) key = _
    rw [List.foldl_append, List.foldl_cons]
    rw [merge_fold_other post _ key hpost]
    have h0 : dictGet (pre.foldl merge_row fresh) (keyOf r) = some fr := by
      rw [hkey, merge_fold_other pre fresh key hpre]
      exact hfr
    rw [← hkey]
    exact merge_row_hit _ r fr e pl a h0 he hpl ha
  · intro c hc1 hc2 hc3
    rw [dictGet_dictSet_ne _ _ _ _ (fun hx => hc3 hx.symm),
        dictGet_dictSet_ne _ _ _ _ (fun hx => hc2 hx.symm),
        dictGet_dictSet_ne _ _ _ _ (fun hx => hc1 hx.symm)]

/-- Claim C3 (witness): concrete two-sided merge satisfying the amended
claim. -/
theorem merge_structural_fields_witness :
    dictGet (merge_existing
        (some [[("Study Instance UID", "S"), ("Series Instance UID", "U"),
                ("Example File", "old.dcm"), ("Plane Orientation", "coronal"),
                ("Annotation", "t1")]])
        [(("S", "U"), [("00181030", "proto"), ("Example File", "new.dcm"),
                       ("Plane Orientation", "axial")])])
      ("S", "U")
      = some (dictSet (dictSet (dictSet
          [("00181030", "proto"), ("Example File", "new.dcm"), ("Plane Orientation", "axial")]
          "Example File" "old.dcm") "Plane Orientation" "coronal") "Annotation" "t1") :=
  (merge_structural_fields_amended [] []
    [(("S", "U"), [("00181030", "proto"), ("Example File", "new.dcm"),
                   ("Plane Orientation", "axial")])]
    ("S", "U")
    [("Study Instance UID", "S"), ("Series Instance UID", "U"),
     ("Example File", "old.dcm"), ("Plane Orientation", "coronal"), ("Annotation", "t1")]
    [("00181030", "proto"), ("Example File", "new.dcm"), ("Plane Orientation", "axial")]
    "old.dcm" "coronal" "t1"
    (by intro q hq; exact absurd hq (List.not_mem_nil q))
    (by intro q hq; exact absurd hq (List.not_mem_nil q))
    (by decide) (by decide) (by decide) (by decide) (by decide)).1

/-- Claim C4: once a series has a (non-empty) Annotation in the persisted
manifest, the merge of any fresh scan still binds that series key to a
record carrying exactly that Annotation — a re-scan never erases or
overwrites an operator-entered label. -/
theorem merge_label_stickiness (pre post : List Row) (fresh : Manifest)
    (key : String × String) (r : Row) (a : String)
    (hpre : ∀ q ∈ pre, keyOf q ≠ key) (hpost : ∀ q ∈ post, keyOf q ≠ key)
    (hkey : keyOf r = key)
    (ha : rowGetD r "Annotation" "" = a) (hne : a ≠ "") :
    ∃ rec : Row, dictGet (merge_existing (some (pre ++ r :: post)) fresh) key = some rec
      ∧ dictGet rec "Annotation" = some a := by
  show ∃ rec : Row, dictGet ((pre ++ r :: post).foldl merge_row fresh) key = some rec ∧ _
  rw [List.foldl_append, List.foldl_cons]
  obtain ⟨rec, hrec, hann⟩ := merge_row_annotation (pre.foldl merge_row fresh) r
  refine ⟨rec, ?_, ?_⟩
  · rw [merge_fold_other post _ key hpost, ← hkey]
    exact hrec
  · rw [hann, ha]

/-- Claim C4 (witness): a fresh re-scan of the same series does not erase
the label t1. -/
theorem merge_label_stickiness_witness :
    ∃ rec : Row, dictGet (merge_existing
        (some [[("Study Instance UID", "S"), ("Series Instance UID", "U"),
                ("Example File", "old.dcm"), ("Plane Orientation", "coronal"),
                ("Annotation", "t1")]])
        [(("S", "U"), [("Example File", "new.dcm"), ("Plane Orientation", "axial")])])
      ("S", "U") = some rec
      ∧ dictGet rec "Annotation" = some "t1" :=
  merge_label_stickiness [] []
    [(("S", "U"), [("Example File", "new.dcm"), ("Plane Orientation", "axial")])]
    ("S", "U")
    [("Study Instance UID", "S"), ("Series Instance UID", "U"),
     ("Example File", "old.dcm"), ("Plane Orientation", "coronal"), ("Annotation", "t1")]
    "t1"
    (by intro q hq; exact absurd hq (List.not_mem_nil q))
    (by intro q hq; exact absurd hq (List.not_mem_nil q))
    (by decide) (by decide) (by decide)

/-! ### C10: only .dcm / .ima / extensionless files are touched -/

theorem run_apply_cons_enum (m : UidMap) (f : FsFile) (rest : List FsFile)
    (h : enumeratedName (fileName f.path) = true) :
    run_apply m (f :: rest)
      = ((run_apply m rest).1.add (handle_file m f).1,
         (handle_file m f).2 :: (run_apply m rest).2) := by
  simp [run_apply, h]

theorem run_apply_cons_skip (m : UidMap) (f : FsFile) (rest : List FsFile)
    (h : enumeratedName (fileName f.path) = false) :
    run_apply m (f :: rest) = ((run_apply m rest).1, f :: (run_apply m rest).2) := by
  simp [run_apply, h]

theorem counts_add_total (c : Counts) (o : Outcome) :
    (Counts.add c o).total = c.total + 1 := by
  cases o <;> simp [Counts.add, Counts.total] <;> omega

theorem run_apply_total (m : UidMap) (tree : List FsFile) :
    (run_apply m tree).1.total
      = (tree.filter (fun g => enumeratedName (fileName g.path))).length := by
  induction tree with
  | nil => rfl
  | cons f rest ih =>
    by_cases h : enumeratedName (fileName f.path) = true
    · rw [run_apply_cons_enum m f rest h, counts_add_total, ih]
      simp [List.filter_cons, h]
    · simp only [Bool.not_eq_true] at h
      rw [run_apply_cons_skip m f rest h, ih]
      simp [List.filter_cons, h]

/-- Claim C10: a file whose (lowercased pathlib) suffix is not `.dcm`,
`.ima` or empty survives a run untouched — same path, same content — and
contributes to none of the five outcome counters: the counters total exactly
the number of enumerated files. -/
theorem run_apply_frame (m : UidMap) (tree : List FsFile) (f : FsFile)
    (hmem : f ∈ tree) (hne : enumeratedName (fileName f.path) = false) :
    f ∈ (run_apply m tree).2
  ∧ (run_apply m tree).1.total
      = (tree.filter (fun g => enumeratedName (fileName g.path))).length := by
  refine ⟨?_, run_apply_total m tree⟩
  induction tree with
  | nil => exact absurd hmem (List.not_mem_nil f)
  | cons g rest ih =>
    rcases List.mem_cons.mp hmem with rfl | hm
    · rw [run_apply_cons_skip m f rest hne]
      exact List.mem_cons_self _ _
    · by_cases h : enumeratedName (fileName g.path) = true
      · rw [run_apply_cons_enum m g rest h]
        exact List.mem_cons_of_mem _ (ih hm)
      · simp only [Bool.not_eq_true] at h
        rw [run_apply_cons_skip m g rest h]
        exact List.mem_cons_of_mem _ (ih hm)

/-- Claim C10 (witness): a `.txt` file in a tree with a labelled `.dcm` file
is still present, untouched, after the run. -/
theorem run_apply_frame_witness :
    (⟨["notes.txt"], Entry.unreadable⟩ : FsFile)
      ∈ (run_apply [("u", ("A", "axial"))]
          [⟨["notes.txt"], Entry.unreadable⟩,
           ⟨["f.dcm"], .dicom ⟨some "u", none, none, none, some "X"⟩⟩]).2 :=
  (run_apply_frame [("u", ("A", "axial"))]
    [⟨["notes.txt"], Entry.unreadable⟩,
     ⟨["f.dcm"], .dicom ⟨some "u", none, none, none, some "X"⟩⟩]
    ⟨["notes.txt"], Entry.unreadable⟩
    (List.mem_cons_self _ _) (by decide)).1

end DicomLabeler
